import Mathlib

/-!
Verification of the chat message-stream reducer (the `Chat` custom element).

The reducer state is the ordered list `messages` of `{content, sender}`
records, together with the list of outbound HTTP send requests the widget
has issued (the observable side effect of `_addMessage` for user messages).

The four handlers of the source are embedded as pure state transformers:
  * `_addMessage(event)`      ↦ `addMessage content sender`
  * `_aiMessage(event)`       ↦ `aiMessage content`
  * `_imageMsg(event)`        ↦ `imageMsg url`
  * `_partialCmd(event)`      ↦ `partialCmd command soFar`
`_partialCmd` reads `this.messages[this.messages.length-1].sender` with no
emptiness guard; on an empty `messages` array the index is `-1`, the lookup
yields `undefined`, and the `.sender` access throws a `TypeError`.  The
embedding therefore returns `Except JsError ChatState`, with `.error`
exactly where the JavaScript throws.
-/

/-- A chat message record `{content, sender}`. -/
structure Message where
  content : String
  sender : String
deriving Repr, DecidableEq

/-- Body of an outbound `POST /chat/<sessionid>/send` request:
`JSON.stringify({ message: content })` serialises the one-field object. -/
structure SendRequest where
  message : String
deriving Repr, DecidableEq

/-- Observable state of the `Chat` component: its `messages` array and the
trace of outbound send requests it has fired. -/
structure ChatState where
  messages : List Message
  sent : List SendRequest
deriving Repr, DecidableEq

/-- Exceptions the JavaScript handlers can raise. -/
inductive JsError where
  /-- property access on `undefined` -/
  | typeError
  /-- `JSON.parse` failure on data that is not valid JSON -/
  | syntaxError
deriving Repr, DecidableEq

/-- `_addMessage(event)`: destructures `{content, sender}` from
`event.detail`, appends `{content, sender}` to `messages`, and, when
`sender === 'user'`, fires one `fetch` whose JSON body is
`{ message: content }` (fire-and-forget: no response is consumed). -/
def addMessage (content sender : String) (st : ChatState) : ChatState :=
  let st' : ChatState := { st with messages := st.messages ++ [⟨content, sender⟩] }
  if sender = "user" then
    { st' with sent := st'.sent ++ [⟨content⟩] }
  else
    st'

/-- Modelled from the spec: the `chat-form` element (not part of the given
sources) dispatches the `addmessage` event for a user submission with
`detail = {content, sender: 'user'}`; per §4.1 `onUserSubmit(content)`
appends `{content, sender: "user"}` and forwards `{message: content}`. -/
def onUserSubmit (content : String) (st : ChatState) : ChatState :=
  addMessage content "user" st

/-- `_aiMessage(event)` after `JSON.parse`: appends
`{content: data.content, sender: 'ai'}`. -/
def aiMessage (content : String) (st : ChatState) : ChatState :=
  { st with messages := st.messages ++ [⟨content, "ai"⟩] }

/-- The template literal `` `<img src="${data.url}" alt="image">` ``. -/
def renderImageMarkup (url : String) : String :=
  "<img src=\"" ++ url ++ "\" alt=\"image\">"

/-- `_imageMsg(event)` after `JSON.parse`: appends
`{content: `<img src="${data.url}" alt="image">`, sender: 'ai'}`. -/
def imageMsg (url : String) (st : ChatState) : ChatState :=
  { st with messages := st.messages ++ [⟨renderImageMarkup url, "ai"⟩] }

/-- `this.messages[this.messages.length-1].content = c`: the in-place
overwrite of the last element's `content`, as a list transformer. -/
def setLastContent : List Message → String → List Message
  | [], _ => []
  | [m], c => [{ m with content := c }]
  | m :: m' :: rest, c => m :: setLastContent (m' :: rest) c

/-- `_partialCmd(event)` after `JSON.parse`: reads
`this.messages[this.messages.length-1].sender`.  When `messages` is empty
that lookup is `undefined[.sender]` and throws a `TypeError`.  Otherwise,
when the last sender `!= 'ai'`, a fresh `{content: '', sender: 'ai'}` is
appended; then the last element's `content` is overwritten with
`data.command + ': ' + data.so_far`. -/
def partialCmd (command soFar : String) (st : ChatState) : Except JsError ChatState :=
  match st.messages.getLast? with
  | none => .error .typeError
  | some last =>
      let msgs := if last.sender ≠ "ai" then st.messages ++ [⟨"", "ai"⟩] else st.messages
      .ok { st with messages := setLastContent msgs (command ++ ": " ++ soFar) }

/-- The raw data string of an SSE event, as seen by `JSON.parse`: either it
is not valid JSON, or it parses to an object whose relevant fields may be
absent (absent fields read as `undefined`). -/
inductive EventData where
  | notJson
  | obj (command so_far : Option String)
deriving Repr, DecidableEq

/-- JavaScript string coercion of a possibly-`undefined` field when it is
concatenated with `+`: `undefined` prints as `"undefined"`. -/
def jsStr : Option String → String
  | none => "undefined"
  | some s => s

/-- The full `partial_command` listener: `JSON.parse(event.data)` throws a
`SyntaxError` on malformed data; otherwise the parsed fields (coerced by
string concatenation) reach `_partialCmd`'s body. -/
def partialCmdEvent (d : EventData) (st : ChatState) : Except JsError ChatState :=
  match d with
  | .notJson => .error .syntaxError
  | .obj command so_far => partialCmd (jsStr command) (jsStr so_far) st

/-- One reducer operation, in the spec's vocabulary (§4.1). -/
inductive Op where
  | userSubmit (content : String)
  | finalMessage (content : String)
  | imageMessage (url : String)
  | partialCommand (command soFar : String)
deriving Repr, DecidableEq

/-- Run one operation: `userSubmit`, `finalMessage` and `imageMessage`
never throw; `partialCommand` may. -/
def runOp (o : Op) (st : ChatState) : Except JsError ChatState :=
  match o with
  | .userSubmit c => .ok (onUserSubmit c st)
  | .finalMessage c => .ok (aiMessage c st)
  | .imageMessage u => .ok (imageMsg u st)
  | .partialCommand c s => partialCmd c s st

/-- One `onFinalMessage`/`onImageMessage` call (for C4's call sequences). -/
inductive AiCall where
  | final (content : String)
  | image (url : String)
deriving Repr, DecidableEq

/-- The entry a single `AiCall` appends. -/
def aiCallEntry : AiCall → Message
  | .final c => ⟨c, "ai"⟩
  | .image u => ⟨renderImageMarkup u, "ai"⟩

/-- Run one `AiCall`. -/
def runAiCall (c : AiCall) (st : ChatState) : ChatState :=
  match c with
  | .final content => aiMessage content st
  | .image url => imageMsg url st

/-- Run a sequence of `AiCall`s in order. -/
def runAiCalls (cs : List AiCall) (st : ChatState) : ChatState :=
  cs.foldl (fun s c => runAiCall c s) st

/-- The empty initial state (`this.messages = []` in the constructor). -/
def initState : ChatState := ⟨[], []⟩

-- Helper lemmas about `setLastContent`.

theorem setLastContent_append_singleton (xs : List Message) (a : Message) (c : String) :
    setLastContent (xs ++ [a]) c = xs ++ [{ a with content := c }] := by
  induction xs with
  | nil => rfl
  | cons x xs ih =>
      cases xs with
      | nil => rfl
      | cons y ys => simpa [setLastContent] using ih

theorem setLastContent_length (xs : List Message) (c : String) :
    (setLastContent xs c).length = xs.length := by
  induction xs with
  | nil => rfl
  | cons x xs ih =>
      cases xs with
      | nil => rfl
      | cons y ys => simpa [setLastContent] using ih

theorem setLastContent_getElem? (xs : List Message) (c : String) (i : ℕ)
    (h : i + 1 < xs.length) : (setLastContent xs c)[i]? = xs[i]? := by
  induction xs generalizing i with
  | nil => rfl
  | cons x xs ih =>
      cases xs with
      | nil => simp at h
      | cons y ys =>
          cases i with
          | zero => simp [setLastContent]
          | succ j =>
              have hj : j + 1 < (y :: ys).length := by
                simpa [List.length] using Nat.lt_of_succ_lt_succ h
              simpa [setLastContent] using ih j hj

theorem addMessage_messages (content sender : String) (st : ChatState) :
    (addMessage content sender st).messages = st.messages ++ [⟨content, sender⟩] := by
  unfold addMessage
  split <;> rfl

theorem partialCmd_of_last_not_ai (command soFar : String) (st : ChatState)
    (last : Message) (h : st.messages.getLast? = some last) (h2 : last.sender ≠ "ai") :
    partialCmd command soFar st =
      .ok { st with messages := st.messages ++ [⟨command ++ ": " ++ soFar, "ai"⟩] } := by
  unfold partialCmd
  rw [h]
  simp only [h2, if_pos, ne_eq, not_false_iff, if_true]
  rw [setLastContent_append_singleton]

theorem partialCmd_of_last_ai (command soFar : String) (st : ChatState)
    (last : Message) (h : st.messages.getLast? = some last) (h2 : last.sender = "ai") :
    partialCmd command soFar st =
      .ok { st with messages := setLastContent st.messages (command ++ ": " ++ soFar) } := by
  unfold partialCmd
  rw [h]
  simp [h2]

theorem runAiCall_messages (c : AiCall) (st : ChatState) :
    (runAiCall c st).messages = st.messages ++ [aiCallEntry c] := by
  cases c <;> rfl

theorem runAiCalls_messages (cs : List AiCall) (st : ChatState) :
    (runAiCalls cs st).messages = st.messages ++ cs.map aiCallEntry := by
  induction cs generalizing st with
  | nil => simp [runAiCalls]
  | cons c cs ih =>
      have hstep : runAiCalls (c :: cs) st = runAiCalls cs (runAiCall c st) := rfl
      rw [hstep, ih, runAiCall_messages]
      simp

/-- C1: claimed — `onPartialCommand` first appends a fresh `{content:"",
sender:"ai"}` entry when the sequence is empty, then overwrites the last
entry's content.  On the empty sequence the code instead reads `.sender` of
`undefined` and throws a `TypeError`, leaving the sequence untouched. -/
theorem c1_partialCmd_empty_throws (command soFar : String) :
    partialCmd command soFar initState = .error .typeError ∧ initState.messages = [] :=
  ⟨rfl, rfl⟩

/-- C2: claimed — `onPartialCommand("search","ca")` then
`onPartialCommand("search","cat")` from the empty state yields the single
entry `{content:"search: cat", sender:"ai"}`.  In the code both calls throw
a `TypeError` (the state stays empty), so the claimed singleton never
arises. -/
theorem c2_partial_sequence_from_empty_throws :
    partialCmd "search" "ca" initState = .error .typeError ∧
    partialCmd "search" "cat" initState = .error .typeError ∧
    initState.messages ≠ [⟨"search: cat", "ai"⟩] :=
  ⟨rfl, rfl, by decide⟩

/-- C3: a `onPartialCommand` call whose state's last entry was just appended
by `onUserSubmit` appends exactly one new `"ai"` entry, leaving every
earlier entry — in particular the user entry — unchanged. -/
theorem c3_partialCmd_after_userSubmit_appends (st : ChatState)
    (content command soFar : String) :
    partialCmd command soFar (onUserSubmit content st) =
      .ok { onUserSubmit content st with
            messages := (onUserSubmit content st).messages
              ++ [⟨command ++ ": " ++ soFar, "ai"⟩] } := by
  have hmsgs : (onUserSubmit content st).messages
      = st.messages ++ [⟨content, "user"⟩] := addMessage_messages content "user" st
  have hlast : (onUserSubmit content st).messages.getLast? = some ⟨content, "user"⟩ := by
    rw [hmsgs]
    exact List.getLast?_concat _
  exact partialCmd_of_last_not_ai command soFar _ _ hlast (by simp)

/-- C4: running any sequence of `onFinalMessage`/`onImageMessage` calls
appends exactly one `"ai"` entry per call, modifies no existing entry, and
the final length is the starting length plus the number of calls. -/
theorem c4_ai_calls_append_only (cs : List AiCall) (st : ChatState) :
    (runAiCalls cs st).messages = st.messages ++ cs.map aiCallEntry ∧
    (runAiCalls cs st).messages.length = st.messages.length + cs.length ∧
    ∀ m ∈ cs.map aiCallEntry, m.sender = "ai" := by
  refine ⟨runAiCalls_messages cs st, ?_, ?_⟩
  · rw [runAiCalls_messages]
    simp
  · intro m hm
    obtain ⟨c, _, rfl⟩ := List.mem_map.1 hm
    cases c <;> rfl

/-- C5: claimed — `onPartialCommand("search","cat")` then
`onFinalMessage("Done")` from the empty state yields the two entries
`[{search: cat, ai}, {Done, ai}]`.  In the code the partial call throws a
`TypeError` on the empty sequence, so after `onFinalMessage("Done")` the
sequence holds only `{Done, ai}` — not the claimed two entries. -/
theorem c5_scenario3_from_empty_throws :
    partialCmd "search" "cat" initState = .error .typeError ∧
    (aiMessage "Done" initState).messages = [⟨"Done", "ai"⟩] ∧
    ([⟨"Done", "ai"⟩] : List Message)
      ≠ [⟨"search: cat", "ai"⟩, ⟨"Done", "ai"⟩] :=
  ⟨rfl, rfl, by decide⟩

/-- C6: `onUserSubmit(content)` appends exactly one `{content, sender:
"user"}` entry and issues exactly one outbound request whose JSON body is
`{ message: content }`. -/
theorem c6_userSubmit_appends_and_forwards (content : String) (st : ChatState) :
    (onUserSubmit content st).messages = st.messages ++ [⟨content, "user"⟩] ∧
    (onUserSubmit content st).sent = st.sent ++ [⟨content⟩] := by
  constructor <;> simp [onUserSubmit, addMessage]

/-- C7: every operation that completes leaves every entry other than the
last of the resulting sequence exactly as it was: once an entry is no
longer last, its content and sender never change. -/
theorem c7_only_last_mutated (o : Op) (st st' : ChatState)
    (h : runOp o st = .ok st') (i : ℕ) (hi : i + 1 < st'.messages.length) :
    st'.messages[i]? = st.messages[i]? := by
  cases o with
  | userSubmit c =>
      obtain rfl : onUserSubmit c st = st' := by simpa [runOp] using h
      rw [onUserSubmit, addMessage_messages] at hi ⊢
      simp at hi
      exact List.getElem?_append_left (by omega)
  | finalMessage c =>
      obtain rfl : aiMessage c st = st' := by simpa [runOp] using h
      rw [aiMessage] at hi ⊢
      simp at hi
      exact List.getElem?_append_left (by omega)
  | imageMessage u =>
      obtain rfl : imageMsg u st = st' := by simpa [runOp] using h
      rw [imageMsg] at hi ⊢
      simp at hi
      exact List.getElem?_append_left (by omega)
  | partialCommand c s =>
      have hp : partialCmd c s st = .ok st' := h
      rcases hlast : st.messages.getLast? with _ | last
      · rw [partialCmd, hlast] at hp
        exact absurd hp (by simp)
      · by_cases hs : last.sender = "ai"
        · rw [partialCmd_of_last_ai c s st last hlast hs] at hp
          obtain rfl : ({ st with
              messages := setLastContent st.messages (c ++ ": " ++ s) } : ChatState)
              = st' := by simpa using hp
          simp only [setLastContent_length] at hi
          exact setLastContent_getElem? _ _ _ hi
        · rw [partialCmd_of_last_not_ai c s st last hlast hs] at hp
          obtain rfl : ({ st with
              messages := st.messages ++ [⟨c ++ ": " ++ s, "ai"⟩] } : ChatState)
              = st' := by simpa using hp
          simp at hi
          exact List.getElem?_append_left (by omega)

/-- C7 witness: the invariant applied to a concrete `onFinalMessage` step. -/
theorem c7_only_last_mutated_witness :
    runOp (Op.finalMessage "done") ⟨[⟨"hi", "user"⟩], []⟩ =
      .ok ⟨[⟨"hi", "user"⟩, ⟨"done", "ai"⟩], []⟩ ∧
    (0 : ℕ) + 1 < (⟨[⟨"hi", "user"⟩, ⟨"done", "ai"⟩], []⟩ : ChatState).messages.length ∧
    (⟨[⟨"hi", "user"⟩, ⟨"done", "ai"⟩], []⟩ : ChatState).messages[(0 : ℕ)]? =
      (⟨[⟨"hi", "user"⟩], []⟩ : ChatState).messages[(0 : ℕ)]? :=
  ⟨rfl, by decide,
    c7_only_last_mutated (Op.finalMessage "done") ⟨[⟨"hi", "user"⟩], []⟩
      ⟨[⟨"hi", "user"⟩, ⟨"done", "ai"⟩], []⟩ rfl 0 (by decide)⟩

/-- C8: claimed — a malformed event payload is validated and dropped and no
reducer raises into the host event loop.  In the code `JSON.parse` runs
unguarded: on data that is not valid JSON the `partial_command` listener
raises a `SyntaxError`, and even a well-formed payload makes it raise a
`TypeError` when the message list is empty. -/
theorem c8_malformed_event_raises (st : ChatState) :
    partialCmdEvent .notJson st = .error .syntaxError ∧
    partialCmdEvent (.obj (some "go") (some "x")) initState = .error .typeError :=
  ⟨rfl, rfl⟩

/-- C9: `onImageMessage(url)` appends exactly one `"ai"` entry whose content
is the image markup with `url` embedded as a substring; from the empty
state the sequence is that single entry. -/
theorem c9_imageMsg_appends_markup (url : String) (st : ChatState) :
    (imageMsg url st).messages = st.messages ++ [⟨renderImageMarkup url, "ai"⟩] ∧
    (∃ pre post, renderImageMarkup url = pre ++ url ++ post) ∧
    (imageMsg "http://x/y.png" initState).messages =
      [⟨"<img src=\"http://x/y.png\" alt=\"image\">", "ai"⟩] :=
  ⟨rfl, ⟨"<img src=\"", "\" alt=\"image\">", rfl⟩, rfl⟩

/-- C10: the add-message handler appends the entry for every sender, and
issues an outbound send request exactly when the sender is `"user"`. -/
theorem c10_forward_iff_user (content sender : String) (st : ChatState) :
    (addMessage content sender st).messages = st.messages ++ [⟨content, sender⟩] ∧
    (addMessage content sender st).sent =
      (if sender = "user" then st.sent ++ [⟨content⟩] else st.sent) := by
  unfold addMessage
  split <;> simp_all
